import Mathlib

/-!
Verification of the noray core (a homogeneous-coordinate tuple/color library).

The source is pure Rust over IEEE-754 binary64 scalars.  Three embeddings of
the same operations are used, each faithful to the source at a stated level:

1. An exact-arithmetic embedding with scalars in the reals (structures Point,
   Vector from src/math.rs and Tetrad from src/lib.rs) for the structural and
   algebraic claims; every operation is translated expression-for-expression,
   with f64 literals read as the real numbers they denote.
2. An exact-arithmetic embedding of src/color.rs with scalars in the
   rationals (structure RGB), for the exact-arithmetic reading of the color
   scenarios.
3. A binary64 rounding model over dyadic rationals (type Dy, the rounding
   fl64 and the structures Point64, Vector64, RGB64): every arithmetic
   result is rounded to the nearest 53-bit-significand dyadic rational, ties
   to even, which is exactly IEEE-754 round-to-nearest-even for values in
   the normal range (none of the concrete computations below leave that
   range).  This model decides the claims that assert bit-exact f64
   equalities.
4. An exact-arithmetic embedding extended with the IEEE special values
   (type F with plus and minus infinity and NaN, structure TetradF), matching
   what the specification calls the domain as the real numbers extended
   with IEEE special values; it settles the division-by-zero behaviour.
-/

namespace Noray

set_option maxRecDepth 100000

/-! ## Exact-real embedding of src/math.rs -/

/-- Representation of a point (struct Point in src/math.rs): four f64
fields, modelled as real numbers. -/
structure Point where
  x : ℝ
  y : ℝ
  z : ℝ
  w : ℝ

/-- Representation of a vector (struct Vector in src/math.rs). -/
structure Vector where
  x : ℝ
  y : ℝ
  z : ℝ
  w : ℝ

/-- Point::new in src/math.rs: stores the three coordinates with w = 1.0. -/
def Point.new (x y z : ℝ) : Point :=
  ⟨x, y, z, 1⟩

/-- Vector::new in src/math.rs: stores the three coordinates with w = 0.0. -/
def Vector.new (x y z : ℝ) : Vector :=
  ⟨x, y, z, 0⟩

/-- Vector::magnitude in src/math.rs:
(self.x * self.x + self.y * self.y + self.z * self.z + self.w * self.w).sqrt(). -/
noncomputable def Vector.magnitude (v : Vector) : ℝ :=
  Real.sqrt (v.x * v.x + v.y * v.y + v.z * v.z + v.w * v.w)

/-- Div of a Vector by an f64 in src/math.rs:
Vector::new(self.x / rhs, self.y / rhs, self.z / rhs). -/
noncomputable def Vector.div (v : Vector) (rhs : ℝ) : Vector :=
  Vector.new (v.x / rhs) (v.y / rhs) (v.z / rhs)

/-- Vector::normalize in src/math.rs: self / self.magnitude(). -/
noncomputable def Vector.normalize (v : Vector) : Vector :=
  v.div v.magnitude

/-- Vector::dot in src/math.rs: the sum of the component-wise products over
all four fields. -/
def Vector.dot (v rhs : Vector) : ℝ :=
  v.x * rhs.x + v.y * rhs.y + v.z * rhs.z + v.w * rhs.w

/-- Vector::cross in src/math.rs, the left-handed cross product:
Vector::new(self.y * rhs.z - self.z * rhs.y, self.z * rhs.x - self.x * rhs.z,
self.x * rhs.y - self.y * rhs.x). -/
def Vector.cross (v rhs : Vector) : Vector :=
  Vector.new (v.y * rhs.z - v.z * rhs.y) (v.z * rhs.x - v.x * rhs.z)
    (v.x * rhs.y - v.y * rhs.x)

/-- Add of two Vectors in src/math.rs. -/
def Vector.add (v rhs : Vector) : Vector :=
  Vector.new (v.x + rhs.x) (v.y + rhs.y) (v.z + rhs.z)

/-- Add of a Point and a Vector in src/math.rs:
Point::new(self.x + rhs.x, self.y + rhs.y, self.z + rhs.z). -/
def Point.add (p : Point) (rhs : Vector) : Point :=
  Point.new (p.x + rhs.x) (p.y + rhs.y) (p.z + rhs.z)

/-- Mul of a Vector by an f64 in src/math.rs. -/
def Vector.mul (v : Vector) (rhs : ℝ) : Vector :=
  Vector.new (v.x * rhs) (v.y * rhs) (v.z * rhs)

/-- Neg of a Vector in src/math.rs: Vector::new(-self.x, -self.y, -self.z). -/
def Vector.neg (v : Vector) : Vector :=
  Vector.new (-v.x) (-v.y) (-v.z)

/-- Sub of two Points in src/math.rs, yielding a Vector. -/
def Point.subPoint (p rhs : Point) : Vector :=
  Vector.new (p.x - rhs.x) (p.y - rhs.y) (p.z - rhs.z)

/-- Sub of a Vector from a Point in src/math.rs, yielding a Point. -/
def Point.subVector (p : Point) (rhs : Vector) : Point :=
  Point.new (p.x - rhs.x) (p.y - rhs.y) (p.z - rhs.z)

/-- Sub of two Vectors in src/math.rs. -/
def Vector.sub (v rhs : Vector) : Vector :=
  Vector.new (v.x - rhs.x) (v.y - rhs.y) (v.z - rhs.z)

/-! ## Exact-real embedding of the Tetrad type of src/lib.rs -/

/-- Representation for both vectors and points (struct Tetrad in src/lib.rs). -/
structure Tetrad where
  x : ℝ
  y : ℝ
  z : ℝ
  w : ℝ

/-- Tetrad::new in src/lib.rs. -/
def Tetrad.new (x y z w : ℝ) : Tetrad :=
  ⟨x, y, z, w⟩

/-- Tetrad::point in src/lib.rs: Tetrad::new(x, y, z, 1.0). -/
def Tetrad.point (x y z : ℝ) : Tetrad :=
  Tetrad.new x y z 1

/-- Tetrad::vector in src/lib.rs: Tetrad::new(x, y, z, 0.0). -/
def Tetrad.vector (x y z : ℝ) : Tetrad :=
  Tetrad.new x y z 0

/-- The f64 machine epsilon f64::EPSILON, which is 2 to the power -52. -/
noncomputable def EPSILON : ℝ :=
  1 / 2 ^ 52

/-- Tetrad::is_point in src/lib.rs: (self.w - 1.0).abs() < f64::EPSILON. -/
def Tetrad.is_point (t : Tetrad) : Prop :=
  |t.w - 1| < EPSILON

/-- Tetrad::is_vector in src/lib.rs: (self.w - 0.0).abs() < f64::EPSILON. -/
def Tetrad.is_vector (t : Tetrad) : Prop :=
  |t.w - 0| < EPSILON

/-- Tetrad::scale in src/lib.rs: all four components times the factor. -/
def Tetrad.scale (t : Tetrad) (factor : ℝ) : Tetrad :=
  Tetrad.new (t.x * factor) (t.y * factor) (t.z * factor) (t.w * factor)

/-- Tetrad::scale_inverse in src/lib.rs: all four components divided by the
factor. -/
noncomputable def Tetrad.scale_inverse (t : Tetrad) (factor : ℝ) : Tetrad :=
  Tetrad.new (t.x / factor) (t.y / factor) (t.z / factor) (t.w / factor)

/-- Tetrad::magnitude in src/lib.rs. -/
noncomputable def Tetrad.magnitude (t : Tetrad) : ℝ :=
  Real.sqrt (t.x * t.x + t.y * t.y + t.z * t.z + t.w * t.w)

/-- Tetrad::normalize in src/lib.rs: self.scale_inverse(self.magnitude()). -/
noncomputable def Tetrad.normalize (t : Tetrad) : Tetrad :=
  t.scale_inverse t.magnitude

/-- Tetrad::dot in src/lib.rs. -/
def Tetrad.dot (t rhs : Tetrad) : ℝ :=
  t.x * rhs.x + t.y * rhs.y + t.z * rhs.z + t.w * rhs.w

/-- Tetrad::cross in src/lib.rs: the result is built with Tetrad::vector, so
its w component is 0 whatever the w components of the operands are. -/
def Tetrad.cross (t rhs : Tetrad) : Tetrad :=
  Tetrad.vector (t.y * rhs.z - t.z * rhs.y) (t.z * rhs.x - t.x * rhs.z)
    (t.x * rhs.y - t.y * rhs.x)

/-- Add of two Tetrads in src/lib.rs: component-wise on all four fields. -/
def Tetrad.add (t rhs : Tetrad) : Tetrad :=
  Tetrad.new (t.x + rhs.x) (t.y + rhs.y) (t.z + rhs.z) (t.w + rhs.w)

/-- Neg of a Tetrad in src/lib.rs: negates all four fields, w included. -/
def Tetrad.neg (t : Tetrad) : Tetrad :=
  Tetrad.new (-t.x) (-t.y) (-t.z) (-t.w)

/-- Sub of two Tetrads in src/lib.rs: component-wise on all four fields. -/
def Tetrad.sub (t rhs : Tetrad) : Tetrad :=
  Tetrad.new (t.x - rhs.x) (t.y - rhs.y) (t.z - rhs.z) (t.w - rhs.w)

/-! ## Exact-rational embedding of src/color.rs -/

/-- Representation of a color (struct RGB in src/color.rs), with the three
f64 fields modelled as rationals, read exactly. -/
structure RGB where
  r : ℚ
  g : ℚ
  b : ℚ
deriving DecidableEq

/-- RGB::new in src/color.rs: direct construction, no validation. -/
def RGB.new (r g b : ℚ) : RGB :=
  ⟨r, g, b⟩

/-- Add of two RGB colors in src/color.rs: component-wise sum. -/
def RGB.add (c rhs : RGB) : RGB :=
  RGB.new (c.r + rhs.r) (c.g + rhs.g) (c.b + rhs.b)

/-- Sub of two RGB colors in src/color.rs: component-wise difference. -/
def RGB.sub (c rhs : RGB) : RGB :=
  RGB.new (c.r - rhs.r) (c.g - rhs.g) (c.b - rhs.b)

/-- Mul of an RGB color by an f64 scalar in src/color.rs. -/
def RGB.mulScalar (c : RGB) (rhs : ℚ) : RGB :=
  RGB.new (c.r * rhs) (c.g * rhs) (c.b * rhs)

/-- Mul of two RGB colors in src/color.rs: the component-wise (Hadamard)
product. -/
def RGB.mulRGB (c rhs : RGB) : RGB :=
  RGB.new (c.r * rhs.r) (c.g * rhs.g) (c.b * rhs.b)

/-! ## Binary64 rounding model

A finite binary64 value is a dyadic rational.  Type Dy represents one as an
integer mantissa over a power-of-two denominator, and fl64 rounds a Dy to
the nearest value with a 53-bit significand, ties to even, then puts it in
canonical form (odd mantissa or exponent zero), so that structural equality
of canonical Dy values coincides with IEEE equality of the finite f64 values
they denote.  For values in the binary64 normal range (no overflow, no
subnormals) this rounding is exactly what Rust f64 arithmetic performs, and
every concrete value in the theorems below lies well inside that range.
fl64Q rounds an arbitrary rational, as the Rust compiler does to decimal
literals.  All arithmetic here is on Nat and Int only, so the kernel can
evaluate it. -/

/-- A dyadic rational num / 2 ^ exp, the exact value of a finite binary64
number. -/
structure Dy where
  num : ℤ
  exp : ℕ
deriving DecidableEq

/-- Floor of the base-2 logarithm, computed with explicit fuel so that the
definition is structurally recursive and kernel-reducible; the fuel n
suffices since the base-2 logarithm of n is at most n. -/
def flog2Fuel : ℕ → ℕ → ℕ
  | 0, _ => 0
  | f + 1, n => if n < 2 then 0 else flog2Fuel f (n / 2) + 1

/-- Floor of the base-2 logarithm of a natural number (0 for inputs 0, 1). -/
def flog2 (n : ℕ) : ℕ :=
  flog2Fuel n n

/-- Round num / den to the nearest natural number, ties to even (den > 0). -/
def roundHalfEven (num den : ℕ) : ℕ :=
  let q := num / den
  let r := num % den
  if 2 * r < den then q
  else if den < 2 * r then q + 1
  else if q % 2 = 0 then q else q + 1

/-- Canonical form of a dyadic rational: halve the mantissa while it is even
and the exponent is positive.  Recursion is on the exponent, which bounds
the number of halvings. -/
def canon : ℤ → ℕ → Dy
  | num, 0 => ⟨num, 0⟩
  | num, e + 1 => if num % 2 = 0 then canon (num / 2) e else ⟨num, e + 1⟩

/-- Round a dyadic rational to the nearest binary64 value (normal range),
ties to even: if the mantissa fits in 53 bits the value is already
representable, otherwise the mantissa is scaled down and rounded half to
even.  The rounding is odd-symmetric, as IEEE round-to-nearest-even is. -/
def fl64 (d : Dy) : Dy :=
  if d.num = 0 then ⟨0, 0⟩
  else
    let a : ℕ := d.num.natAbs
    let L := flog2 a
    if L ≤ 52 then canon d.num d.exp
    else
      let sh := L - 52
      let m : ℕ := roundHalfEven a (2 ^ sh)
      let sm : ℤ := if d.num < 0 then -(m : ℤ) else (m : ℤ)
      if d.exp ≤ sh then canon (sm * Int.ofNat (2 ^ (sh - d.exp))) 0
      else canon sm (d.exp - sh)

/-- Round the rational n / d (with d > 0) to the nearest binary64 value
(normal range), ties to even; this is what the Rust compiler does to a
decimal f64 literal.  The exponent e is the floor of the base-2 logarithm of
the absolute value, the significand is the value scaled into the interval
from 2 to the 52nd power to 2 to the 53rd power and rounded half to even. -/
def fl64Q (n : ℤ) (d : ℕ) : Dy :=
  if n = 0 then ⟨0, 0⟩
  else
    let a : ℕ := n.natAbs
    let dd : ℤ := (flog2 a : ℤ) - (flog2 d : ℤ)
    let e : ℤ :=
      if 0 ≤ dd then (if d * 2 ^ dd.toNat ≤ a then dd else dd - 1)
      else (if d ≤ a * 2 ^ (-dd).toNat then dd else dd - 1)
    let s : ℤ := 52 - e
    let m : ℕ :=
      if 0 ≤ s then roundHalfEven (a * 2 ^ s.toNat) d
      else roundHalfEven a (d * 2 ^ (-s).toNat)
    let sm : ℤ := if n < 0 then -(m : ℤ) else (m : ℤ)
    if 0 ≤ s then canon sm s.toNat else canon (sm * Int.ofNat (2 ^ (-s).toNat)) 0

/-- Exact sum of two dyadic rationals (before rounding). -/
def Dy.addExact (x y : Dy) : Dy :=
  let e := max x.exp y.exp
  ⟨x.num * Int.ofNat (2 ^ (e - x.exp)) + y.num * Int.ofNat (2 ^ (e - y.exp)), e⟩

/-- Exact negation of a dyadic rational. -/
def Dy.negD (x : Dy) : Dy :=
  ⟨-x.num, x.exp⟩

/-- Exact product of two dyadic rationals (before rounding). -/
def Dy.mulExact (x y : Dy) : Dy :=
  ⟨x.num * y.num, x.exp + y.exp⟩

/-- Binary64 addition: the exact sum, rounded. -/
def f64add (x y : Dy) : Dy :=
  fl64 (x.addExact y)

/-- Binary64 subtraction: the exact difference (the exact sum with the
negated second operand), rounded. -/
def f64sub (x y : Dy) : Dy :=
  fl64 (x.addExact y.negD)

/-- Binary64 multiplication: the exact product, rounded. -/
def f64mul (x y : Dy) : Dy :=
  fl64 (x.mulExact y)

/-- Struct Point of src/math.rs under the binary64 model: the fields hold
the (already rounded) binary64 values. -/
structure Point64 where
  x : Dy
  y : Dy
  z : Dy
  w : Dy
deriving DecidableEq

/-- Struct Vector of src/math.rs under the binary64 model. -/
structure Vector64 where
  x : Dy
  y : Dy
  z : Dy
  w : Dy
deriving DecidableEq

/-- Point::new under the binary64 model: w is exactly 1.0 (representable). -/
def Point64.new (x y z : Dy) : Point64 :=
  ⟨x, y, z, ⟨1, 0⟩⟩

/-- Vector::new under the binary64 model: w is exactly 0.0. -/
def Vector64.new (x y z : Dy) : Vector64 :=
  ⟨x, y, z, ⟨0, 0⟩⟩

/-- Add of a Point and a Vector in src/math.rs under the binary64 model:
each component sum is a binary64 addition. -/
def Point64.add (p : Point64) (rhs : Vector64) : Point64 :=
  Point64.new (f64add p.x rhs.x) (f64add p.y rhs.y) (f64add p.z rhs.z)

/-- Sub of a Vector from a Point in src/math.rs under the binary64 model. -/
def Point64.subVector (p : Point64) (rhs : Vector64) : Point64 :=
  Point64.new (f64sub p.x rhs.x) (f64sub p.y rhs.y) (f64sub p.z rhs.z)

/-- Struct RGB of src/color.rs under the binary64 model. -/
structure RGB64 where
  r : Dy
  g : Dy
  b : Dy
deriving DecidableEq

/-- RGB::new under the binary64 model. -/
def RGB64.new (r g b : Dy) : RGB64 :=
  ⟨r, g, b⟩

/-- Mul of two RGB colors in src/color.rs under the binary64 model: each
component product is a binary64 multiplication. -/
def RGB64.mulRGB (c rhs : RGB64) : RGB64 :=
  RGB64.new (f64mul c.r rhs.r) (f64mul c.g rhs.g) (f64mul c.b rhs.b)

/-! ## Exact arithmetic extended with the IEEE special values

Type F is the real numbers together with the two infinities and NaN; the
operations below follow the IEEE-754 rules for special operands (the only
zero is +0.0, the only zero the noray code produces in the computations at
issue) and are exact on finite operands.  This is the domain the
specification itself names: the real-number domain extended with IEEE
special values. -/

/-- An IEEE-style scalar: a finite real, an infinity (the flag true means
negative infinity), or NaN. -/
inductive F where
  | finite : ℝ → F
  | inf : Bool → F
  | nan : F

/-- IEEE division on F: a nonzero finite value divided by zero gives an
infinity of the appropriate sign, zero divided by zero gives NaN, NaN
propagates, and finite operands divide exactly. -/
noncomputable def F.div : F → F → F
  | F.finite a, F.finite b =>
      if b = 0 then
        (if a = 0 then F.nan else if a < 0 then F.inf true else F.inf false)
      else F.finite (a / b)
  | F.finite _, F.inf _ => F.finite 0
  | F.finite _, F.nan => F.nan
  | F.inf s, F.finite b => if b < 0 then F.inf (!s) else F.inf s
  | F.inf _, F.inf _ => F.nan
  | F.inf _, F.nan => F.nan
  | F.nan, _ => F.nan

/-- IEEE multiplication on F: infinity times zero gives NaN, NaN propagates,
finite operands multiply exactly. -/
noncomputable def F.mul : F → F → F
  | F.finite a, F.finite b => F.finite (a * b)
  | F.finite a, F.inf s => if a = 0 then F.nan else if a < 0 then F.inf (!s) else F.inf s
  | F.inf s, F.finite b => if b = 0 then F.nan else if b < 0 then F.inf (!s) else F.inf s
  | F.inf s, F.inf t => F.inf (xor s t)
  | F.inf _, F.nan => F.nan
  | F.finite _, F.nan => F.nan
  | F.nan, _ => F.nan

/-- IEEE addition on F: opposite infinities give NaN, NaN propagates, finite
operands add exactly. -/
noncomputable def F.add : F → F → F
  | F.finite a, F.finite b => F.finite (a + b)
  | F.finite _, F.inf s => F.inf s
  | F.inf s, F.finite _ => F.inf s
  | F.inf s, F.inf t => if s = t then F.inf s else F.nan
  | F.inf _, F.nan => F.nan
  | F.finite _, F.nan => F.nan
  | F.nan, _ => F.nan

/-- IEEE square root on F: NaN on negative finite values and on negative
infinity, exact on nonnegative finite values. -/
noncomputable def F.sqrt : F → F
  | F.finite a => if a < 0 then F.nan else F.finite (Real.sqrt a)
  | F.inf false => F.inf false
  | F.inf true => F.nan
  | F.nan => F.nan

/-- Struct Tetrad of src/lib.rs over the IEEE-extended scalars. -/
structure TetradF where
  x : F
  y : F
  z : F
  w : F

/-- Tetrad::point over the IEEE-extended scalars: w is the finite value 1. -/
def TetradF.point (x y z : F) : TetradF :=
  ⟨x, y, z, F.finite 1⟩

/-- Tetrad::vector over the IEEE-extended scalars: w is the finite value 0. -/
def TetradF.vector (x y z : F) : TetradF :=
  ⟨x, y, z, F.finite 0⟩

/-- Tetrad::scale_inverse over the IEEE-extended scalars: all four
components divided by the factor, with IEEE division. -/
noncomputable def TetradF.scale_inverse (t : TetradF) (factor : F) : TetradF :=
  ⟨t.x.div factor, t.y.div factor, t.z.div factor, t.w.div factor⟩

/-- Tetrad::magnitude over the IEEE-extended scalars, with the left-associated sum the source writes, of the four squared components. -/
noncomputable def TetradF.magnitude (t : TetradF) : F :=
  F.sqrt ((((t.x.mul t.x).add (t.y.mul t.y)).add (t.z.mul t.z)).add (t.w.mul t.w))

/-- Tetrad::normalize over the IEEE-extended scalars:
self.scale_inverse(self.magnitude()). -/
noncomputable def TetradF.normalize (t : TetradF) : TetradF :=
  t.scale_inverse t.magnitude

/-! ## Claims -/

/-- C1: every Point produced by the two-type API (Point::new, Point + Vector,
Point - Vector) has discriminant w exactly 1.0, and every Vector produced by
any operation (Vector::new, Vector + Vector, Vector - Vector, Point - Point,
negation, scalar multiply and divide, cross, normalize) has discriminant w
exactly 0.0; each listed constructor pins w to that one value. -/
theorem constructor_discriminants :
    (∀ x y z : ℝ, (Point.new x y z).w = 1) ∧
    (∀ (p : Point) (v : Vector), (p.add v).w = 1) ∧
    (∀ (p : Point) (v : Vector), (p.subVector v).w = 1) ∧
    (∀ x y z : ℝ, (Vector.new x y z).w = 0) ∧
    (∀ a b : Vector, (a.add b).w = 0) ∧
    (∀ a b : Vector, (a.sub b).w = 0) ∧
    (∀ p q : Point, (p.subPoint q).w = 0) ∧
    (∀ a : Vector, a.neg.w = 0) ∧
    (∀ (a : Vector) (r : ℝ), (a.mul r).w = 0) ∧
    (∀ (a : Vector) (r : ℝ), (a.div r).w = 0) ∧
    (∀ a b : Vector, (a.cross b).w = 0) ∧
    (∀ a : Vector, a.normalize.w = 0) :=
  ⟨fun _ _ _ => rfl, fun _ _ => rfl, fun _ _ => rfl, fun _ _ _ => rfl,
   fun _ _ => rfl, fun _ _ => rfl, fun _ _ => rfl, fun _ => rfl,
   fun _ _ => rfl, fun _ _ => rfl, fun _ _ => rfl, fun _ => rfl⟩

/-- C2: cross(a, b) has components (y1 z2 - z1 y2, z1 x2 - x1 z2,
x1 y2 - y1 x2) and discriminant w = 0; on the Tetrad type the discriminant of
the result is 0 whatever the w components of the operands are. -/
theorem cross_components :
    (∀ a b : Vector,
      a.cross b =
        Vector.new (a.y * b.z - a.z * b.y) (a.z * b.x - a.x * b.z)
          (a.x * b.y - a.y * b.x)) ∧
    (∀ a b : Vector, (a.cross b).w = 0) ∧
    (∀ a b : Tetrad, (a.cross b).w = 0) :=
  ⟨fun _ _ => rfl, fun _ _ => rfl, fun _ _ => rfl⟩

/-- C3: the cross product is anticommutative, cross(a, b) = -cross(b, a),
with the component-wise Neg of Vector. -/
theorem cross_anticomm : ∀ a b : Vector, a.cross b = (b.cross a).neg := by
  intro a b
  simp only [Vector.cross, Vector.neg, Vector.new, Vector.mk.injEq]
  refine ⟨by ring, by ring, by ring, by norm_num⟩

/-- C4 counterexample: in the binary64 arithmetic the code actually performs,
(p + v) - v = p fails at p = Point::new(0.1, 0.0, 0.0) and
v = Vector::new(0.2, 0.0, 0.0): the x component comes back as
0.10000000000000003, one unit in the last place above 0.1. -/
theorem roundtrip_translation_cex :
    ((Point64.new (fl64Q 1 10) ⟨0, 0⟩ ⟨0, 0⟩).add
        (Vector64.new (fl64Q 1 5) ⟨0, 0⟩ ⟨0, 0⟩)).subVector
      (Vector64.new (fl64Q 1 5) ⟨0, 0⟩ ⟨0, 0⟩) ≠
      Point64.new (fl64Q 1 10) ⟨0, 0⟩ ⟨0, 0⟩ := by
  decide

/-- C4 as amended: in exact real arithmetic, adding a vector to a point and
subtracting the same vector returns the original point. -/
theorem roundtrip_translation_exact :
    ∀ (x y z : ℝ) (v : Vector),
      ((Point.new x y z).add v).subVector v = Point.new x y z := by
  intro x y z v
  simp [Point.add, Point.subVector, Point.new, Point.mk.injEq]

/-- C5: the arithmetic is total and unguarded at the IEEE edge cases:
scale_inverse by zero turns the point (1, 2, 3) into four positive
infinities, and normalize of the zero vector divides zero by zero and yields
NaN in all four components. -/
theorem scale_inverse_zero_normalize_zero :
    (TetradF.point (F.finite 1) (F.finite 2) (F.finite 3)).scale_inverse
        (F.finite 0) =
      ⟨F.inf false, F.inf false, F.inf false, F.inf false⟩ ∧
    (TetradF.vector (F.finite 0) (F.finite 0) (F.finite 0)).normalize =
      ⟨F.nan, F.nan, F.nan, F.nan⟩ := by
  constructor
  · simp only [TetradF.point, TetradF.scale_inverse, F.div]
    norm_num
  · simp only [TetradF.vector, TetradF.normalize, TetradF.magnitude,
      TetradF.scale_inverse, F.mul, F.add, F.sqrt, F.div]
    norm_num [Real.sqrt_zero]

/-- C6: is_point holds exactly when the w component is within machine epsilon
of 1, is_vector exactly when it is within machine epsilon of 0; every Tetrad
built by Tetrad::point satisfies is_point and not is_vector, and every Tetrad
built by Tetrad::vector satisfies is_vector and not is_point. -/
theorem discriminant_epsilon :
    (∀ t : Tetrad, t.is_point ↔ |t.w - 1| < EPSILON) ∧
    (∀ t : Tetrad, t.is_vector ↔ |t.w - 0| < EPSILON) ∧
    (∀ x y z : ℝ,
      (Tetrad.point x y z).is_point ∧ ¬(Tetrad.point x y z).is_vector) ∧
    (∀ x y z : ℝ,
      (Tetrad.vector x y z).is_vector ∧ ¬(Tetrad.vector x y z).is_point) := by
  refine ⟨fun t => Iff.rfl, fun t => Iff.rfl, fun x y z => ⟨?_, ?_⟩,
    fun x y z => ⟨?_, ?_⟩⟩ <;>
    norm_num [Tetrad.is_point, Tetrad.is_vector, Tetrad.point, Tetrad.vector,
      Tetrad.new, EPSILON]

/-- C7 counterexample: in binary64 arithmetic the Hadamard product of
Color(1.0, 0.2, 0.4) and Color(0.9, 1.0, 0.1) is not exactly
Color(0.9, 0.2, 0.04): the blue component 0.4 * 0.1 rounds one unit in the
last place above the binary64 value of 0.04. -/
theorem hadamard_product_cex :
    (RGB64.new (fl64Q 1 1) (fl64Q 1 5) (fl64Q 2 5)).mulRGB
        (RGB64.new (fl64Q 9 10) (fl64Q 1 1) (fl64Q 1 10)) ≠
      RGB64.new (fl64Q 9 10) (fl64Q 1 5) (fl64Q 1 25) := by
  decide

/-- C7 as amended: the binary64 Hadamard product of Color(1.0, 0.2, 0.4) and
Color(0.9, 1.0, 0.1) is Color(0.9, 0.2, 0.04000000000000001) — the value the test in the code itself asserts — and the product equals Color(0.9, 0.2, 0.04) in
exact real arithmetic. -/
theorem hadamard_product_f64_and_exact :
    (RGB64.new (fl64Q 1 1) (fl64Q 1 5) (fl64Q 2 5)).mulRGB
        (RGB64.new (fl64Q 9 10) (fl64Q 1 1) (fl64Q 1 10)) =
      RGB64.new (fl64Q 9 10) (fl64Q 1 5)
        (fl64Q 4000000000000001 100000000000000000) ∧
    (RGB.new 1 (1 / 5) (2 / 5)).mulRGB (RGB.new (9 / 10) 1 (1 / 10)) =
      RGB.new (9 / 10) (1 / 5) (1 / 25) := by
  constructor
  · decide
  · simp only [RGB.mulRGB, RGB.new, RGB.mk.injEq]
    norm_num

/-- C8: the dot product is the sum of the component-wise products over all
four fields and is commutative, on the Vector type and on the Tetrad type. -/
theorem dot_comm :
    (∀ a b : Vector,
      a.dot b = a.x * b.x + a.y * b.y + a.z * b.z + a.w * b.w) ∧
    (∀ a b : Vector, a.dot b = b.dot a) ∧
    (∀ a b : Tetrad, a.dot b = b.dot a) :=
  ⟨fun _ _ => rfl, fun a b => by simp only [Vector.dot]; ring,
   fun a b => by simp only [Tetrad.dot]; ring⟩

/-- C9: magnitude is the square root of the sum of the squares of all four
components, normalize is the component-wise division by the magnitude (on
Vector through the Div overload, on Tetrad through scale_inverse), and the
magnitude of vector(1, -2, 3) is the square root of 14. -/
theorem magnitude_normalize :
    (∀ v : Vector,
      v.magnitude = Real.sqrt (v.x * v.x + v.y * v.y + v.z * v.z + v.w * v.w)) ∧
    (∀ v : Vector, v.normalize = v.div v.magnitude) ∧
    (∀ t : Tetrad,
      t.magnitude = Real.sqrt (t.x * t.x + t.y * t.y + t.z * t.z + t.w * t.w)) ∧
    (∀ t : Tetrad, t.normalize = t.scale_inverse t.magnitude) ∧
    (Vector.new 1 (-2) 3).magnitude = Real.sqrt 14 := by
  refine ⟨fun v => rfl, fun v => rfl, fun t => rfl, fun t => rfl, ?_⟩
  norm_num [Vector.magnitude, Vector.new]

/-- C10: negating a Tetrad built by Tetrad::point gives discriminant
w = -1.0, which is within machine epsilon of neither 1 nor 0, so the
negation is classified neither as a point nor as a vector. -/
theorem neg_point_discriminant :
    ∀ x y z : ℝ,
      (Tetrad.point x y z).neg.w = -1 ∧
      ¬(Tetrad.point x y z).neg.is_point ∧
      ¬(Tetrad.point x y z).neg.is_vector := by
  intro x y z
  refine ⟨rfl, ?_, ?_⟩ <;>
    norm_num [Tetrad.is_point, Tetrad.is_vector, Tetrad.point, Tetrad.neg,
      Tetrad.new, EPSILON]

end Noray
